import Mathlib

/-!
Verification of the netbug/rdb package (`register.go`): a shallow embedding
of `Register`, its request handler closure `h`, and the index-page template
`indexTmpl`, together with proofs of the specified properties.

The Go code renders the index through the standard-library `text/template`
engine.  To stay faithful to the source we embed the template as the exact
string literal appearing in `register.go` and model the fragment of the
`text/template` language it uses (literal text, `.Field` and `$.Field`
actions, `.`, and non-nested `range` blocks): the render function is
obtained by tokenising, parsing and executing that very string, mirroring
`template.Must(template.New("index").Parse(...))` followed by
`indexTmpl.Execute`.
-/

/-- A named profile from the runtime profile registry
(`runtime/pprof.Profile`).  Its name is fixed; its sample count is read
live from the registry, which we model as a separate `Counts` map,
because `Count()` is a method reading mutable runtime state. -/
structure Profile where
  name : String
deriving DecidableEq, Repr

/-- The live sample counts of the runtime profile registry at some instant:
`Profile.Count()` for the profile of a given name. -/
def Counts := String → Nat

/-- The registry state visible at registration time: the ordered list of
registered profiles returned by `runtime/pprof.Profiles()`. -/
structure PprofState where
  profiles : List Profile
deriving DecidableEq, Repr

/-- The anonymous view-model struct built by `Register` (`tmpInfo` in
`register.go`): captured profile list, the fixed info-link list, and the
route prefix.  The Go field `Prefix` is called `Pre` here because `prefix`
is reserved in Lean; the template engine below still resolves the template
field name `Prefix` to it. -/
structure TmpInfo where
  Profiles : List Profile
  Info : List String
  Pre : String
deriving DecidableEq, Repr

/-- An incoming HTTP request, as far as the handler inspects or forwards
it: method, URL path (`r.URL.Path`, query string excluded) and raw query. -/
structure Request where
  method : String
  path : String
  rawQ : String
deriving DecidableEq, Repr

/-! ## The template engine (fragment of Go `text/template`) -/

/-- A lexical token of the template source: literal text, or the contents
of one `action` delimited by double braces. -/
inductive Tok where
  | textT (s : String)
  | actT (s : String)
deriving DecidableEq, Repr

/-- Scan the characters of an action up to the closing double brace;
returns the action characters and the remainder. `none` when the closing
delimiter is missing. -/
def readAction : List Char → Option (List Char × List Char)
  | '\x7d' :: '\x7d' :: rest => some ([], rest)
  | c :: rest =>
    match readAction rest with
    | some (a, r) => some (c :: a, r)
    | none => none
  | [] => none

/-- Tokenise template source characters into literal-text and action
tokens.  `fuel` bounds recursion; `fuel = length of input` suffices since
every step consumes at least one character. -/
def tokenize : Nat → List Char → Option (List Tok)
  | _, [] => some []
  | 0, _ :: _ => none
  | fuel + 1, '\x7b' :: '\x7b' :: rest =>
    match readAction rest with
    | none => none
    | some (a, rest') =>
      match tokenize fuel rest' with
      | none => none
      | some ts => some (.actT (String.mk a) :: ts)
  | fuel + 1, c :: rest =>
    match tokenize fuel rest with
    | none => none
    | some (.textT s :: ts) => some (.textT (String.mk [c] ++ s) :: ts)
    | some ts => some (.textT (String.mk [c]) :: ts)

/-- A parsed template action: field access on the current dot, field
access on the root value via the dollar variable, the bare dot, the
opening of a range block, or the end keyword. -/
inductive Act where
  | fieldA (f : String)
  | dollarA (f : String)
  | dotA
  | rangeA (f : String)
  | endA
deriving DecidableEq, Repr

/-- Whether `s` starts with `pre` (character-wise; same result as
`strings.HasPrefix`). -/
def strStarts (s pre : String) : Bool :=
  List.isPrefixOf pre.data s.data

/-- The string `s` with its first `n` characters removed. -/
def strDrop (s : String) (n : Nat) : String :=
  String.mk (s.data.drop n)

/-- Parse the text of a single action. -/
def parseAct (s : String) : Option Act :=
  if s = "." then some .dotA
  else if s = "end" then some .endA
  else if strStarts s "range ." then
    let f := strDrop s 7
    if f = "" then none else some (.rangeA f)
  else if strStarts s "$." then
    let f := strDrop s 2
    if f = "" then none else some (.dollarA f)
  else if strStarts s "." then
    let f := strDrop s 1
    if f = "" then none else some (.fieldA f)
  else none

/-- A node inside a range body: text or a non-range action. -/
inductive FNode where
  | textF (s : String)
  | fieldF (f : String)
  | dollarF (f : String)
  | dotF
deriving DecidableEq, Repr

/-- A top-level template node: text, a non-range action, or a range block
with its body. -/
inductive Node where
  | textN (s : String)
  | fieldN (f : String)
  | dollarN (f : String)
  | dotN
  | rng (f : String) (body : List FNode)
deriving DecidableEq, Repr

/-- Parse the body of a range block up to its end action. -/
def parseBody : List Tok → Option (List FNode × List Tok)
  | [] => none
  | .textT s :: ts =>
    match parseBody ts with
    | some (ns, rest) => some (.textF s :: ns, rest)
    | none => none
  | .actT a :: ts =>
    match parseAct a with
    | some .endA => some ([], ts)
    | some (.fieldA f) =>
      match parseBody ts with
      | some (ns, rest) => some (.fieldF f :: ns, rest)
      | none => none
    | some (.dollarA f) =>
      match parseBody ts with
      | some (ns, rest) => some (.dollarF f :: ns, rest)
      | none => none
    | some .dotA =>
      match parseBody ts with
      | some (ns, rest) => some (.dotF :: ns, rest)
      | none => none
    | _ => none

/-- Parse a top-level token sequence into template nodes.  `fuel` bounds
recursion; `fuel = number of tokens` suffices since every step consumes at
least one token. -/
def parseTop : Nat → List Tok → Option (List Node)
  | _, [] => some []
  | 0, _ :: _ => none
  | fuel + 1, .textT s :: ts =>
    match parseTop fuel ts with
    | some ns => some (.textN s :: ns)
    | none => none
  | fuel + 1, .actT a :: ts =>
    match parseAct a with
    | some (.fieldA f) =>
      match parseTop fuel ts with
      | some ns => some (.fieldN f :: ns)
      | none => none
    | some (.dollarA f) =>
      match parseTop fuel ts with
      | some ns => some (.dollarN f :: ns)
      | none => none
    | some .dotA =>
      match parseTop fuel ts with
      | some ns => some (.dotN :: ns)
      | none => none
    | some (.rangeA f) =>
      match parseBody ts with
      | some (body, rest) =>
        match parseTop fuel rest with
        | some ns => some (.rng f body :: ns)
        | none => none
      | none => none
    | _ => none

/-- Parse a template source string, modelling `template.Parse`. -/
def parseTemplate (s : String) : Option (List Node) :=
  match tokenize s.data.length s.data with
  | none => none
  | some ts => parseTop ts.length ts

/-- A runtime value the template engine can hold in its dot: a string, an
integer, a profile, the whole view model, or one of its two list fields. -/
inductive Val where
  | vStr (s : String)
  | vNat (n : Nat)
  | vProfile (p : Profile)
  | vInfo (t : TmpInfo)
  | vListP (l : List Profile)
  | vListS (l : List String)

/-- Field lookup, modelling `text/template` field and method resolution on
the values this template touches: on the view model, `Prefix`, `Profiles`
and `Info` are struct fields; on a profile, `Name` and `Count` are the
methods of `*pprof.Profile`, `Count` reading the live registry counts.
Unknown fields are execution errors (`none`). -/
def execField (c : Counts) (v : Val) (f : String) : Option Val :=
  match v with
  | .vInfo t =>
    if f = "Prefix" then some (.vStr t.Pre)
    else if f = "Profiles" then some (.vListP t.Profiles)
    else if f = "Info" then some (.vListS t.Info)
    else none
  | .vProfile p =>
    if f = "Name" then some (.vStr p.name)
    else if f = "Count" then some (.vNat (c p.name))
    else none
  | _ => none

/-- Print a value into the output, modelling the default `%v` formatting
for the value shapes this template prints (strings and integers; the
other shapes are never printed by the index template). -/
def printVal : Val → String
  | .vStr s => s
  | .vNat n => Nat.repr n
  | _ => ""

/-- Execute one range-body node against the root value and the current
dot. -/
def execF (c : Counts) (root dot : Val) : FNode → Option String
  | .textF s => some s
  | .fieldF f =>
    match execField c dot f with
    | some v => some (printVal v)
    | none => none
  | .dollarF f =>
    match execField c root f with
    | some v => some (printVal v)
    | none => none
  | .dotF => some (printVal dot)

/-- Execute a range body, concatenating the output of its nodes. -/
def execFs (c : Counts) (root dot : Val) : List FNode → Option String
  | [] => some ""
  | n :: ns =>
    match execF c root dot n with
    | none => none
    | some s =>
      match execFs c root dot ns with
      | none => none
      | some r => some (s ++ r)

/-- Concatenate a list of fallible outputs, failing if any element
fails. -/
def optConcat : List (Option String) → Option String
  | [] => some ""
  | o :: os =>
    match o with
    | none => none
    | some s =>
      match optConcat os with
      | none => none
      | some r => some (s ++ r)

/-- Execute one top-level node.  A `range` action iterates its body once
per element of the list field, with the dot bound to the element, exactly
as `text/template` does; ranging over a non-list value is an execution
error. -/
def execN (c : Counts) (root dot : Val) : Node → Option String
  | .textN s => some s
  | .fieldN f =>
    match execField c dot f with
    | some v => some (printVal v)
    | none => none
  | .dollarN f =>
    match execField c root f with
    | some v => some (printVal v)
    | none => none
  | .dotN => some (printVal dot)
  | .rng f body =>
    match execField c dot f with
    | some (.vListP l) => optConcat (l.map fun p => execFs c root (.vProfile p) body)
    | some (.vListS l) => optConcat (l.map fun s => execFs c root (.vStr s) body)
    | some _ => none
    | none => none

/-- Execute a top-level node sequence. -/
def execNs (c : Counts) (root dot : Val) : List Node → Option String
  | [] => some ""
  | n :: ns =>
    match execN c root dot n with
    | none => none
    | some s =>
      match execNs c root dot ns with
      | none => none
      | some r => some (s ++ r)

/-- Execute a parsed template against a root data value, modelling
`Template.Execute` (with output collected into a string; `none` is an
execution error). -/
def execTemplate (c : Counts) (root : Val) (t : List Node) : Option String :=
  execNs c root root t

/-- The exact template source string from `register.go` (the raw string
literal passed to `template.Parse`; braces are written escaped). -/
def indexTmplSrc : String :=
  "<html>\n" ++
  "  <head>\n" ++
  "    <title>\x7b\x7b.Prefix\x7d\x7ddebug/pprof/</title>\n" ++
  "  </head>\n" ++
  "  \x7b\x7b.Prefix\x7d\x7ddebug/pprof/<br>\n" ++
  "  <br>\n" ++
  "  <body>\n" ++
  "    profiles:<br>\n" ++
  "    <table>\n" ++
  "    \x7b\x7brange .Profiles\x7d\x7d\n" ++
  "      <tr><td align=right>\x7b\x7b.Count\x7d\x7d<td><a href=\"\x7b\x7b$.Prefix\x7d\x7ddebug/pprof/\x7b\x7b.Name\x7d\x7d?debug=1\">\x7b\x7b.Name\x7d\x7d</a>\n" ++
  "    \x7b\x7bend\x7d\x7d\n" ++
  "    <tr><td align=right><td><a href=\"\x7b\x7b$.Prefix\x7d\x7ddebug/pprof/profile\">CPU</a>\n" ++
  "    </table>\n" ++
  "    <br>\n" ++
  "    debug information:<br>\n" ++
  "    <table>\n" ++
  "    \x7b\x7brange .Info\x7d\x7d\n" ++
  "      <tr><td align=right><td><a href=\"\x7b\x7b$.Prefix\x7d\x7ddebug/pprof/\x7b\x7b.\x7d\x7d\">\x7b\x7b.\x7d\x7d</a>\n" ++
  "    \x7b\x7bend\x7d\x7d\n" ++
  "    <tr><td align=right><td><a href=\"\x7b\x7b.Prefix\x7d\x7ddebug/pprof/goroutine?debug=2\">full goroutine stack dump</a><br>\n" ++
  "    <table>\n" ++
  "  </body>\n" ++
  "</html>"

/-- The result of package initialisation for a value produced by
`template.Must`: the parsed value, or an aborted startup (`Must` panics
during package initialisation when parsing fails). -/
inductive Startup (α : Type) where
  | ok (a : α)
  | aborted

/-- `template.Must`: abort startup on a parse error, otherwise yield the
parsed template. -/
def must {α : Type} : Option α → Startup α
  | some a => .ok a
  | none => .aborted

/-- The parse of the index template source. -/
def indexTmplP : Option (List Node) := parseTemplate indexTmplSrc

/-- The package-level `indexTmpl` variable: parsed exactly once at
package initialisation, through `template.Must`. -/
def indexTmpl : Startup (List Node) := must indexTmplP

/-- The abstract syntax tree that parsing the index template source
yields (established below in `indexTmpl_ast`). -/
def indexAst : List Node :=
  [.textN "<html>\n  <head>\n    <title>",
   .fieldN "Prefix",
   .textN "debug/pprof/</title>\n  </head>\n  ",
   .fieldN "Prefix",
   .textN "debug/pprof/<br>\n  <br>\n  <body>\n    profiles:<br>\n    <table>\n    ",
   .rng "Profiles"
     [.textF "\n      <tr><td align=right>",
      .fieldF "Count",
      .textF "<td><a href=\"",
      .dollarF "Prefix",
      .textF "debug/pprof/",
      .fieldF "Name",
      .textF "?debug=1\">",
      .fieldF "Name",
      .textF "</a>\n    "],
   .textN "\n    <tr><td align=right><td><a href=\"",
   .dollarN "Prefix",
   .textN "debug/pprof/profile\">CPU</a>\n    </table>\n    <br>\n    debug information:<br>\n    <table>\n    ",
   .rng "Info"
     [.textF "\n      <tr><td align=right><td><a href=\"",
      .dollarF "Prefix",
      .textF "debug/pprof/",
      .dotF,
      .textF "\">",
      .dotF,
      .textF "</a>\n    "],
   .textN "\n    <tr><td align=right><td><a href=\"",
   .fieldN "Prefix",
   .textN "debug/pprof/goroutine?debug=2\">full goroutine stack dump</a><br>\n    <table>\n  </body>\n</html>"]

/-- Render the index page for a view model and the live registry counts:
`indexTmpl.Execute(w, tmpInfo)` with the output collected into a string.
The handler can only run when startup succeeded, i.e. when `indexTmpl`
parsed. -/
def renderIndex (info : TmpInfo) (c : Counts) : Option String :=
  match indexTmpl with
  | .ok t => execTemplate c (.vInfo info) t
  | .aborted => none

/-! ## The handler and registration -/

/-- `strings.TrimPrefix s pre`: `s` without the leading `pre` when
present, otherwise `s` unchanged. -/
def strTrimPre (s pre : String) : String :=
  if strStarts s pre then strDrop s pre.data.length else s

/-- What the handler does with a request, identifying which branch of the
switch ran: render the index (with its output), or delegate to one of the
`net/http/pprof` handlers (`Cmdline`, `Profile`, `Symbol`, or
`Handler(name)` for the generic named-profile lookup). -/
inductive Response where
  | indexPage (body : Option String)
  | cmdline
  | profile
  | symbol
  | named (name : String)
deriving DecidableEq, Repr

/-- The request handler closure `h` built by `Register`: trim the literal
route prefix plus `debug/pprof/` from the request path and switch on the
resulting name.  `pfx` and `info` are the values captured at registration
time; `c` is the live registry state at request time. -/
def h (pfx : String) (info : TmpInfo) (c : Counts) (r : Request) : Response :=
  let name := strTrimPre r.path (pfx ++ "debug/pprof/")
  if name = "" then .indexPage (renderIndex info c)
  else if name = "cmdline" then .cmdline
  else if name = "profile" then .profile
  else if name = "symbol" then .symbol
  else .named name

/-- The type of a registered handler function: it consumes the live
registry counts at request time and the request. -/
abbrev HandlerFn := Counts → Request → Response

/-- An `http.ServeMux` route table: patterns with their handlers. -/
structure ServeMux where
  routes : List (String × HandlerFn)

/-- `ServeMux.HandleFunc`: Go's `ServeMux.Handle` panics on an empty
pattern and on a duplicate registration of the same pattern; otherwise it
adds the single route.  Panics are modelled as `Except.error`. -/
def ServeMux.handleFunc (m : ServeMux) (pat : String) (hf : HandlerFn) :
    Except String ServeMux :=
  if pat = "" then .error "http: invalid pattern"
  else if m.routes.any fun e => e.1 = pat then
    .error "http: multiple registrations"
  else .ok ⟨m.routes ++ [(pat, hf)]⟩

/-- `Register(prefix, mux)`: build the view model from the
registration-time registry state and register the handler closure at the
prefix.  `st` is the registry state at the moment of the call
(`pprof.Profiles()`). -/
def Register (pfx : String) (mux : ServeMux) (st : PprofState) :
    Except String ServeMux :=
  let tmpInfo : TmpInfo :=
    { Profiles := st.profiles
      Info := ["cmdline", "symbol"]
      Pre := pfx }
  mux.handleFunc pfx (h pfx tmpInfo)

set_option maxRecDepth 100000 in
/-- Parsing the static index template source yields `indexAst`. -/
theorem indexTmplP_eq : indexTmplP = some indexAst := by
  decide

/-- Package initialisation succeeds: `template.Must` receives a successful
parse and `indexTmpl` holds the parsed template. -/
theorem indexTmpl_ast : indexTmpl = .ok indexAst := by
  rw [indexTmpl, indexTmplP_eq]
  rfl



/-! ## The rendered index page, in closed form -/

/-- Concatenation of a list of strings. -/
def strJoin : List String → String
  | [] => ""
  | s :: l => s ++ strJoin l

/-- The row the index template emits for one registered profile. -/
def profRow (pfx : String) (c : Counts) (p : Profile) : String :=
  "\n      <tr><td align=right>" ++ (Nat.repr (c p.name) ++ ("<td><a href=\"" ++
    (pfx ++ ("debug/pprof/" ++ (p.name ++ ("?debug=1\">" ++ (p.name ++ "</a>\n    ")))))))

/-- The row the index template emits for one info link. -/
def infoRow (pfx : String) (i : String) : String :=
  "\n      <tr><td align=right><td><a href=\"" ++ (pfx ++ ("debug/pprof/" ++
    (i ++ ("\">" ++ (i ++ "</a>\n    ")))))

/-- The complete rendered index page for a view model and live counts. -/
def indexBody (info : TmpInfo) (c : Counts) : String :=
  "<html>\n  <head>\n    <title>" ++ (info.Pre ++
  ("debug/pprof/</title>\n  </head>\n  " ++ (info.Pre ++
  ("debug/pprof/<br>\n  <br>\n  <body>\n    profiles:<br>\n    <table>\n    " ++
  (strJoin (info.Profiles.map (profRow info.Pre c)) ++
  ("\n    <tr><td align=right><td><a href=\"" ++ (info.Pre ++
  ("debug/pprof/profile\">CPU</a>\n    </table>\n    <br>\n    debug information:<br>\n    <table>\n    " ++
  (strJoin (info.Info.map (infoRow info.Pre)) ++
  ("\n    <tr><td align=right><td><a href=\"" ++ (info.Pre ++
  "debug/pprof/goroutine?debug=2\">full goroutine stack dump</a><br>\n    <table>\n  </body>\n</html>")))))))))))

theorem optConcat_map_some {α : Type} (g : α → String) (l : List α) :
    optConcat (l.map fun x => some (g x)) = some (strJoin (l.map g)) := by
  induction l with
  | nil => rfl
  | cons x xs ih => simp [optConcat, strJoin, ih]

theorem execFs_prof (c : Counts) (info : TmpInfo) (p : Profile) :
    execFs c (.vInfo info) (.vProfile p)
      [.textF "\n      <tr><td align=right>",
       .fieldF "Count",
       .textF "<td><a href=\"",
       .dollarF "Prefix",
       .textF "debug/pprof/",
       .fieldF "Name",
       .textF "?debug=1\">",
       .fieldF "Name",
       .textF "</a>\n    "] = some (profRow info.Pre c p) := by
  simp [execFs, execF, execField, printVal, profRow, String.append_empty]

theorem execFs_info (c : Counts) (info : TmpInfo) (i : String) :
    execFs c (.vInfo info) (.vStr i)
      [.textF "\n      <tr><td align=right><td><a href=\"",
       .dollarF "Prefix",
       .textF "debug/pprof/",
       .dotF,
       .textF "\">",
       .dotF,
       .textF "</a>\n    "] = some (infoRow info.Pre i) := by
  simp [execFs, execF, execField, printVal, infoRow, String.append_empty]

set_option maxRecDepth 4096 in
/-- Executing the parsed index template on any view model and any live
counts succeeds and produces exactly `indexBody`. -/
theorem renderIndex_eq (info : TmpInfo) (c : Counts) :
    renderIndex info c = some (indexBody info c) := by
  rw [renderIndex, indexTmpl_ast]
  simp [execTemplate, execNs, execN, execField, printVal, indexAst,
    execFs_prof, execFs_info, optConcat_map_some, indexBody,
    String.append_empty, String.append_assoc]

/-! ## Substring containment -/

/-- `hasSub s x`: the string `x` occurs contiguously inside `s`. -/
def hasSub (s x : String) : Prop :=
  ∃ a b, s = a ++ (x ++ b)

theorem hasSub_split (a x b s : String) (hs : s = a ++ (x ++ b)) :
    hasSub s x :=
  ⟨a, b, hs⟩

theorem hasSub_appL (a b x : String) (hs : hasSub b x) :
    hasSub (a ++ b) x := by
  obtain ⟨u, v, rfl⟩ := hs
  exact ⟨a ++ u, v, by rw [String.append_assoc]⟩

theorem hasSub_appR (a b x : String) (hs : hasSub a x) :
    hasSub (a ++ b) x := by
  obtain ⟨u, v, rfl⟩ := hs
  exact ⟨u, v ++ b, by simp [String.append_assoc]⟩

theorem hasSub_trans (s x y : String) (h1 : hasSub s x) (h2 : hasSub x y) :
    hasSub s y := by
  obtain ⟨a, b, rfl⟩ := h1
  obtain ⟨u, v, rfl⟩ := h2
  exact ⟨a ++ u, v ++ b, by simp [String.append_assoc]⟩

theorem hasSub_strJoin (l : List String) (s : String) (hs : s ∈ l) :
    hasSub (strJoin l) s := by
  induction l with
  | nil => cases hs
  | cons t ts ih =>
    rcases List.mem_cons.mp hs with rfl | hmem
    · exact hasSub_appR _ _ _ ⟨"", "", by simp [String.empty_append, String.append_empty]⟩
    · exact hasSub_appL _ _ _ (ih hmem)

/-! ## Dispatch claims -/

/-- The fixed dispatch table, exactly as the spec words it: empty name
renders the index (the `idx` argument), `cmdline`, `profile` and `symbol`
delegate to the corresponding external handlers, anything else goes to
the generic named-profile lookup handler. -/
def specTable (name : String) (idx : Response) : Response :=
  match name with
  | "" => idx
  | "cmdline" => .cmdline
  | "profile" => .profile
  | "symbol" => .symbol
  | other => .named other

/-- The request dispatch exactly as the spec words it: compute the name
by stripping the literal `prefix + "debug/pprof/"` from the front of the
request path when it is there, then branch on the name by the fixed
table.  This is the SPEC side of the refinement; `h` above is translated
from the code. -/
def specDispatch (pfx : String) (info : TmpInfo) (c : Counts) (r : Request) :
    Response :=
  let lit := pfx ++ "debug/pprof/"
  let name := if strStarts r.path lit then strDrop r.path lit.data.length else r.path
  specTable name (.indexPage (renderIndex info c))

theorem ifChain_specTable (name : String) (idx : Response) :
    (if name = "" then idx
     else if name = "cmdline" then Response.cmdline
     else if name = "profile" then Response.profile
     else if name = "symbol" then Response.symbol
     else Response.named name) = specTable name idx := by
  unfold specTable
  split_ifs with h0 h1 h2 h3
  · subst h0; rfl
  · subst h1; rfl
  · subst h2; rfl
  · subst h3; rfl
  · split <;> simp_all

/-- Claim C1: for every incoming request the registered handler computes
the name by stripping the literal `prefix + "debug/pprof/"` from the front
of the request path and dispatches on it by the fixed table: empty name
renders the index page, `cmdline`, `profile` and `symbol` delegate to the
respective external handlers, and any other name goes to the generic
named-profile lookup handler. -/
theorem handler_dispatch_table (pfx : String) (info : TmpInfo) (c : Counts)
    (r : Request) : h pfx info c r = specDispatch pfx info c r := by
  simp only [h, specDispatch, strTrimPre]
  exact ifChain_specTable _ _

/-- Claim C3: when the request path does not begin with the literal
`prefix + "debug/pprof/"`, the computed name is the unmodified path, the
router raises no error, and dispatch falls through to the generic
named-profile branch unless the path equals one of the literal case
strings of the switch. -/
theorem mismatched_path_falls_through (pfx : String) (info : TmpInfo)
    (c : Counts) (r : Request)
    (hm : strStarts r.path (pfx ++ "debug/pprof/") = false) :
    strTrimPre r.path (pfx ++ "debug/pprof/") = r.path ∧
      (r.path ∉ (["", "cmdline", "profile", "symbol"] : List String) →
        h pfx info c r = .named r.path) := by
  have hname : strTrimPre r.path (pfx ++ "debug/pprof/") = r.path := by
    rw [strTrimPre, hm]
    simp
  refine ⟨hname, fun hnot => ?_⟩
  simp only [List.mem_cons, List.mem_singleton, not_or] at hnot
  obtain ⟨h0, h1, h2, h3, -⟩ := hnot
  simp only [h, hname]
  rw [if_neg h0, if_neg h1, if_neg h2, if_neg h3]

/-- Witness for C3 at a concrete mismatched path. -/
theorem mismatched_path_falls_through_w :
    strStarts "/other" ("/d/" ++ "debug/pprof/") = false ∧
      (strTrimPre "/other" ("/d/" ++ "debug/pprof/") = "/other" ∧
        ("/other" ∉ (["", "cmdline", "profile", "symbol"] : List String) →
          h "/d/" ⟨[], ["cmdline", "symbol"], "/d/"⟩ (fun _ => 0)
            ⟨"GET", "/other", ""⟩ = .named "/other")) :=
  ⟨by decide,
   mismatched_path_falls_through "/d/" ⟨[], ["cmdline", "symbol"], "/d/"⟩
     (fun _ => 0) ⟨"GET", "/other", ""⟩ (by decide)⟩

/-- Claim C10: branch selection ignores the request method (and the query
string): two requests with the same URL path are dispatched identically,
whatever their methods; any method restriction is left to the delegated
external handlers. -/
theorem dispatch_ignores_method (pfx : String) (info : TmpInfo) (c : Counts)
    (p q1 q2 m1 m2 : String) :
    h pfx info c ⟨m1, p, q1⟩ = h pfx info c ⟨m2, p, q2⟩ := rfl

/-- Serving a sequence of requests with a registered handler: each
request is handled with the registry state live at its own arrival. -/
def serveSeq (hf : HandlerFn) (l : List (Counts × Request)) : List Response :=
  l.map fun cr => hf cr.1 cr.2

/-- Claim C9: the registration-time configuration is immutable and
requests do not interfere: in any sequence of served requests, each
request is answered exactly as it would be alone, from the same captured
prefix and view model, regardless of the requests served before or after
it. -/
theorem requests_independent (pfx : String) (info : TmpInfo)
    (l1 l2 : List (Counts × Request)) (cr : Counts × Request) :
    serveSeq (h pfx info) (l1 ++ cr :: l2) =
      serveSeq (h pfx info) l1 ++
        h pfx info cr.1 cr.2 :: serveSeq (h pfx info) l2 := by
  simp [serveSeq]

/-- Whether `s` ends with `suf` (character-wise; same result as
`strings.HasSuffix`). -/
def strEnds (s suf : String) : Bool :=
  List.isSuffixOf suf.data s.data

/-- The view model `Register` captures for a prefix and a
registration-time registry state. -/
def regInfo (pfx : String) (st : PprofState) : TmpInfo :=
  { Profiles := st.profiles
    Info := ["cmdline", "symbol"]
    Pre := pfx }

theorem strEnds_slash_ne_empty (pfx : String)
    (hs : strEnds pfx "/" = true) : pfx ≠ "" := by
  intro hemp
  subst hemp
  simp [strEnds, List.isSuffixOf] at hs

/-- Claim C6: with a well-formed prefix (trailing slash, as the API
documents), `Register` performs exactly one addition to the mux's route
table, at key `prefix`, mapping to the handler closure over the captured
configuration; every other entry is untouched; and it fails only when the
mux rejects a duplicate registration of the same prefix. -/
theorem register_single_route (pfx : String) (mux : ServeMux)
    (st : PprofState) (hs : strEnds pfx "/" = true) :
    ((mux.routes.any fun e => e.1 = pfx) = false →
        Register pfx mux st =
          .ok ⟨mux.routes ++ [(pfx, h pfx (regInfo pfx st))]⟩) ∧
      ((mux.routes.any fun e => e.1 = pfx) = true →
        Register pfx mux st = .error "http: multiple registrations") := by
  have hne : pfx ≠ "" := strEnds_slash_ne_empty pfx hs
  constructor
  · intro hdup
    simp [Register, ServeMux.handleFunc, hne, hdup, regInfo]
  · intro hdup
    simp [Register, ServeMux.handleFunc, hne, hdup]

/-- Witness for C6: registering `/d/` on an empty mux adds exactly the
one route. -/
theorem register_single_route_w :
    strEnds "/d/" "/" = true ∧
      ((ServeMux.mk []).routes.any fun e => e.1 = "/d/") = false ∧
      Register "/d/" ⟨[]⟩ ⟨[]⟩ =
        .ok ⟨[] ++ [("/d/", h "/d/" (regInfo "/d/" ⟨[]⟩))]⟩ :=
  ⟨by decide, by decide,
   (register_single_route "/d/" ⟨[]⟩ ⟨[]⟩ (by decide)).1 (by decide)⟩

/-! ## Index content claims -/

/-- Claim C7: index rendering is idempotent: renders against the same
profile-registry state (same captured profile list, and sample counts
unchanged on the registered profiles) produce identical output, in
particular identical sample counts.  Counts of unregistered names are
irrelevant. -/
theorem render_idempotent (info : TmpInfo) (c1 c2 : Counts)
    (hc : ∀ p ∈ info.Profiles, c1 p.name = c2 p.name) :
    renderIndex info c1 = renderIndex info c2 := by
  rw [renderIndex_eq, renderIndex_eq]
  have hrows : info.Profiles.map (profRow info.Pre c1) =
      info.Profiles.map (profRow info.Pre c2) :=
    List.map_congr_left fun p hp => by rw [profRow, profRow, hc p hp]
  rw [indexBody, indexBody, hrows]

/-- Witness for C7 at a concrete registry state: the second counts map
differs only away from the registered profile. -/
theorem render_idempotent_w :
    (∀ p ∈ ([⟨"heap"⟩] : List Profile),
        (fun _ => 1 : Counts) p.name = (fun n => if n = "heap" then 1 else 5) p.name) ∧
      renderIndex ⟨[⟨"heap"⟩], ["cmdline", "symbol"], "/d/"⟩ (fun _ => 1) =
        renderIndex ⟨[⟨"heap"⟩], ["cmdline", "symbol"], "/d/"⟩
          (fun n => if n = "heap" then 1 else 5) :=
  ⟨by decide,
   render_idempotent ⟨[⟨"heap"⟩], ["cmdline", "symbol"], "/d/"⟩ _ _ (by decide)⟩

/-- The index request for a registered prefix: `GET <prefix>debug/pprof/`. -/
def idxReq (pfx : String) : Request :=
  ⟨"GET", pfx ++ "debug/pprof/", ""⟩

theorem strTrimPre_self (s : String) : strTrimPre s s = "" := by
  have h1 : strStarts s s = true := by
    simp [strStarts, List.isPrefixOf_iff_prefix]
  rw [strTrimPre, if_pos h1, strDrop, List.drop_length]

/-- Claim C5: the sample count shown on the index is read live at render
time: serving the index request through the registered handler with live
counts `c` renders, for every profile captured at registration, the value
of `c` at that profile now — not a value cached when `Register` ran
(the captured view model holds no counts at all, only descriptors). -/
theorem counts_read_live (pfx : String) (st : PprofState) (c : Counts)
    (p : Profile) (hp : p ∈ st.profiles) :
    ∃ s, h pfx (regInfo pfx st) c (idxReq pfx) = .indexPage (some s) ∧
      hasSub s (Nat.repr (c p.name)) := by
  refine ⟨indexBody (regInfo pfx st) c, ?_, ?_⟩
  · have hname : strTrimPre (idxReq pfx).path (pfx ++ "debug/pprof/") = "" :=
      strTrimPre_self _
    simp [h, hname, renderIndex_eq]
  · have hrow : hasSub (profRow pfx c p) (Nat.repr (c p.name)) :=
      ⟨"\n      <tr><td align=right>",
       "<td><a href=\"" ++ (pfx ++ ("debug/pprof/" ++ (p.name ++
         ("?debug=1\">" ++ (p.name ++ "</a>\n    "))))), by rw [profRow]⟩
    have hjoin : hasSub (strJoin (st.profiles.map (profRow pfx c)))
        (profRow pfx c p) :=
      hasSub_strJoin _ _ (List.mem_map_of_mem _ hp)
    have hbody : hasSub (indexBody (regInfo pfx st) c)
        (strJoin (st.profiles.map (profRow pfx c))) := by
      simp only [indexBody, regInfo]
      refine hasSub_appL _ _ _ ?_
      refine hasSub_appL _ _ _ ?_
      refine hasSub_appL _ _ _ ?_
      refine hasSub_appL _ _ _ ?_
      refine hasSub_appL _ _ _ ?_
      exact hasSub_appR _ _ _ ⟨"", "", by simp [String.empty_append, String.append_empty]⟩
    exact hasSub_trans _ _ _ (hasSub_trans _ _ _ hbody hjoin) hrow

/-- Witness for C5: with one registered profile named `heap` and live
count 7, the rendered index shows 7. -/
theorem counts_read_live_w :
    (⟨"heap"⟩ : Profile) ∈ ([⟨"heap"⟩] : List Profile) ∧
      ∃ s, h "/d/" (regInfo "/d/" ⟨[⟨"heap"⟩]⟩) (fun _ => 7)
          (idxReq "/d/") = .indexPage (some s) ∧
        hasSub s (Nat.repr ((fun _ => 7 : Counts) "heap")) :=
  ⟨by decide, counts_read_live "/d/" ⟨[⟨"heap"⟩]⟩ (fun _ => 7) ⟨"heap"⟩ (by decide)⟩


theorem hasSub_head3 (u v w z : String) :
    hasSub (u ++ (v ++ (w ++ z))) (u ++ (v ++ w)) :=
  ⟨"", z, by simp [String.empty_append, String.append_assoc]⟩

theorem hasSub_head7 (a1 a2 a3 a4 a5 a6 a7 z : String) :
    hasSub (a1 ++ (a2 ++ (a3 ++ (a4 ++ (a5 ++ (a6 ++ (a7 ++ z)))))))
      (a1 ++ (a2 ++ (a3 ++ (a4 ++ (a5 ++ (a6 ++ a7)))))) :=
  ⟨"", z, by simp [String.empty_append, String.append_assoc]⟩

theorem hasSub_head9 (a1 a2 a3 a4 a5 a6 a7 a8 a9 z : String) :
    hasSub (a1 ++ (a2 ++ (a3 ++ (a4 ++ (a5 ++ (a6 ++ (a7 ++ (a8 ++ (a9 ++ z)))))))))
      (a1 ++ (a2 ++ (a3 ++ (a4 ++ (a5 ++ (a6 ++ (a7 ++ (a8 ++ a9)))))))) :=
  ⟨"", z, by simp [String.empty_append, String.append_assoc]⟩

/-- The index body for the view model `Register` captures, with the
captured info-link list expanded. -/
theorem indexBody_reg (pfx : String) (st : PprofState) (c : Counts) :
    indexBody (regInfo pfx st) c =
      "<html>\n  <head>\n    <title>" ++ (pfx ++
      ("debug/pprof/</title>\n  </head>\n  " ++ (pfx ++
      ("debug/pprof/<br>\n  <br>\n  <body>\n    profiles:<br>\n    <table>\n    " ++
      (strJoin (st.profiles.map (profRow pfx c)) ++
      ("\n    <tr><td align=right><td><a href=\"" ++ (pfx ++
      ("debug/pprof/profile\">CPU</a>\n    </table>\n    <br>\n    debug information:<br>\n    <table>\n    " ++
      (infoRow pfx "cmdline" ++ (infoRow pfx "symbol" ++
      ("\n    <tr><td align=right><td><a href=\"" ++ (pfx ++
      "debug/pprof/goroutine?debug=2\">full goroutine stack dump</a><br>\n    <table>\n  </body>\n</html>")))))))))))) := by
  simp [indexBody, regInfo, strJoin, String.append_empty, String.append_assoc]

/-- Claim C4: the rendered index page contains the title
`prefix + "debug/pprof/"`, one row per captured profile linking to
`prefix + "debug/pprof/" + name + "?debug=1"` together with that
profile's current sample count, the static CPU-profile link, the
`cmdline` and `symbol` info links, the full-goroutine-stack-dump link,
and in particular the literal prefix string and the link to
`prefix + "debug/pprof/profile"`. -/
theorem index_page_content (pfx : String) (st : PprofState) (c : Counts) :
    ∃ s, renderIndex (regInfo pfx st) c = some s ∧
      hasSub s ("<title>" ++ (pfx ++ "debug/pprof/</title>")) ∧
      (∀ p ∈ st.profiles,
        hasSub s ("<tr><td align=right>" ++ (Nat.repr (c p.name) ++
          ("<td><a href=\"" ++ (pfx ++ ("debug/pprof/" ++ (p.name ++
            ("?debug=1\">" ++ (p.name ++ "</a>"))))))))) ∧
      hasSub s ("<a href=\"" ++ (pfx ++ "debug/pprof/profile\">CPU</a>")) ∧
      hasSub s ("<a href=\"" ++ (pfx ++ ("debug/pprof/" ++ ("cmdline" ++
        ("\">" ++ ("cmdline" ++ "</a>")))))) ∧
      hasSub s ("<a href=\"" ++ (pfx ++ ("debug/pprof/" ++ ("symbol" ++
        ("\">" ++ ("symbol" ++ "</a>")))))) ∧
      hasSub s ("<a href=\"" ++ (pfx ++
        "debug/pprof/goroutine?debug=2\">full goroutine stack dump</a>")) ∧
      hasSub s pfx := by
  refine ⟨indexBody (regInfo pfx st) c, renderIndex_eq _ _, ?_, ?_, ?_, ?_, ?_, ?_, ?_⟩
  · rw [indexBody_reg,
      show ("<html>\n  <head>\n    <title>" : String) =
        "<html>\n  <head>\n    " ++ "<title>" from rfl,
      show ("debug/pprof/</title>\n  </head>\n  " : String) =
        "debug/pprof/</title>" ++ "\n  </head>\n  " from rfl]
    simp only [String.append_assoc]
    repeat (first
      | exact hasSub_head3 _ _ _ _
      | apply hasSub_appL)
  · intro p hp
    have hrow : hasSub (profRow pfx c p)
        ("<tr><td align=right>" ++ (Nat.repr (c p.name) ++
          ("<td><a href=\"" ++ (pfx ++ ("debug/pprof/" ++ (p.name ++
            ("?debug=1\">" ++ (p.name ++ "</a>")))))))) := by
      rw [profRow,
        show ("\n      <tr><td align=right>" : String) =
          "\n      " ++ "<tr><td align=right>" from rfl,
        show ("</a>\n    " : String) = "</a>" ++ "\n    " from rfl]
      simp only [String.append_assoc]
      apply hasSub_appL
      exact hasSub_head9 _ _ _ _ _ _ _ _ _ _
    have hjoin : hasSub (strJoin (st.profiles.map (profRow pfx c)))
        (profRow pfx c p) :=
      hasSub_strJoin _ _ (List.mem_map_of_mem _ hp)
    have hbody : hasSub (indexBody (regInfo pfx st) c)
        (strJoin (st.profiles.map (profRow pfx c))) := by
      rw [indexBody_reg]
      refine hasSub_appL _ _ _ (hasSub_appL _ _ _ (hasSub_appL _ _ _
        (hasSub_appL _ _ _ (hasSub_appL _ _ _ ?_))))
      exact hasSub_appR _ _ _ ⟨"", "", by simp [String.empty_append, String.append_empty]⟩
    exact hasSub_trans _ _ _ (hasSub_trans _ _ _ hbody hjoin) hrow
  · rw [indexBody_reg,
      show ("\n    <tr><td align=right><td><a href=\"" : String) =
        "\n    <tr><td align=right><td>" ++ "<a href=\"" from rfl,
      show ("debug/pprof/profile\">CPU</a>\n    </table>\n    <br>\n    debug information:<br>\n    <table>\n    " : String) =
        "debug/pprof/profile\">CPU</a>" ++
          "\n    </table>\n    <br>\n    debug information:<br>\n    <table>\n    " from rfl]
    simp only [String.append_assoc]
    repeat (first
      | exact hasSub_head3 _ _ _ _
      | apply hasSub_appL)
  · rw [indexBody_reg, infoRow, infoRow,
      show ("\n      <tr><td align=right><td><a href=\"" : String) =
        "\n      <tr><td align=right><td>" ++ "<a href=\"" from rfl,
      show ("</a>\n    " : String) = "</a>" ++ "\n    " from rfl]
    simp only [String.append_assoc]
    repeat (first
      | exact hasSub_head7 _ _ _ _ _ _ _ _
      | apply hasSub_appL)
  · rw [indexBody_reg, infoRow, infoRow,
      show ("\n      <tr><td align=right><td><a href=\"" : String) =
        "\n      <tr><td align=right><td>" ++ "<a href=\"" from rfl,
      show ("</a>\n    " : String) = "</a>" ++ "\n    " from rfl]
    simp only [String.append_assoc]
    repeat (first
      | exact hasSub_head7 _ _ _ _ _ _ _ _
      | apply hasSub_appL)
  · rw [indexBody_reg,
      show ("\n    <tr><td align=right><td><a href=\"" : String) =
        "\n    <tr><td align=right><td>" ++ "<a href=\"" from rfl,
      show ("debug/pprof/goroutine?debug=2\">full goroutine stack dump</a><br>\n    <table>\n  </body>\n</html>" : String) =
        "debug/pprof/goroutine?debug=2\">full goroutine stack dump</a>" ++
          "<br>\n    <table>\n  </body>\n</html>" from rfl]
    simp only [String.append_assoc]
    repeat (first
      | exact hasSub_head3 _ _ _ _
      | apply hasSub_appL)
  · rw [indexBody_reg]
    exact ⟨_, _, rfl⟩

/-- Witness for C4 at a concrete prefix and registry state. -/
theorem index_page_content_w :
    ∃ s, renderIndex (regInfo "/d/" ⟨[⟨"heap"⟩]⟩) (fun _ => 2) = some s ∧
      hasSub s ("<title>" ++ ("/d/" ++ "debug/pprof/</title>")) ∧
      (∀ p ∈ ([⟨"heap"⟩] : List Profile),
        hasSub s ("<tr><td align=right>" ++ (Nat.repr ((fun _ => 2 : Counts) p.name) ++
          ("<td><a href=\"" ++ ("/d/" ++ ("debug/pprof/" ++ (p.name ++
            ("?debug=1\">" ++ (p.name ++ "</a>"))))))))) ∧
      hasSub s ("<a href=\"" ++ ("/d/" ++ "debug/pprof/profile\">CPU</a>")) ∧
      hasSub s ("<a href=\"" ++ ("/d/" ++ ("debug/pprof/" ++ ("cmdline" ++
        ("\">" ++ ("cmdline" ++ "</a>")))))) ∧
      hasSub s ("<a href=\"" ++ ("/d/" ++ ("debug/pprof/" ++ ("symbol" ++
        ("\">" ++ ("symbol" ++ "</a>")))))) ∧
      hasSub s ("<a href=\"" ++ ("/d/" ++
        "debug/pprof/goroutine?debug=2\">full goroutine stack dump</a>")) ∧
      hasSub s "/d/" :=
  index_page_content "/d/" ⟨[⟨"heap"⟩]⟩ (fun _ => 2)

/-! ## Escaping (claim C2) -/

/-- Whether the character list `x` occurs contiguously inside `l`
(executable). -/
def subSearch (x : List Char) : List Char → Bool
  | [] => List.isPrefixOf x []
  | c :: t => List.isPrefixOf x (c :: t) || subSearch x t

/-- Whether `x` occurs contiguously inside `s` (executable). -/
def strContainsB (s x : String) : Bool :=
  subSearch x.data s.data

set_option maxRecDepth 100000 in
/-- Claim C2 is false of the code: the index is rendered with Go's
`text/template`, which performs no HTML escaping, so a profile whose name
contains HTML-significant characters is substituted into the page
verbatim.  At prefix `/p/` and a profile named
`<script>alert(1)</script>`, the rendered body contains that name
unescaped (and contains no `&lt;` entity anywhere). -/
theorem index_render_unescaped :
    (renderIndex ⟨[⟨"<script>alert(1)</script>"⟩], ["cmdline", "symbol"], "/p/"⟩
        (fun _ => 0)).map
      (fun s => strContainsB s "<script>alert(1)</script>" &&
        !strContainsB s "&lt;") = some true := by
  decide

/-! ## Template lifecycle (claim C8) -/

/-- Claim C8: a template failure can be fatal only at process startup:
the static index template parses successfully at package initialisation
(yielding `indexAst`); had parsing failed, `template.Must` would abort
startup; and per-request execution of the parsed template never raises an
error — it produces a rendered body for every view model and every
registry state. -/
theorem template_fatal_startup_only :
    (∃ t, indexTmpl = Startup.ok t) ∧
      (∀ s, parseTemplate s = none →
        must (parseTemplate s) = (Startup.aborted : Startup (List Node))) ∧
      (∀ info c, ∃ b, renderIndex info c = some b) :=
  ⟨⟨indexAst, indexTmpl_ast⟩,
   fun _ hs => by rw [hs]; rfl,
   fun info c => ⟨_, renderIndex_eq info c⟩⟩

/-- Witness for C8: an unterminated action fails to parse and aborts
startup; a concrete view model renders without error. -/
theorem template_fatal_startup_only_w :
    parseTemplate "\x7b\x7b" = none ∧
      must (parseTemplate "\x7b\x7b") = (Startup.aborted : Startup (List Node)) ∧
      ∃ b, renderIndex ⟨[], ["cmdline", "symbol"], "/d/"⟩ (fun _ => 0) = some b :=
  ⟨by decide,
   template_fatal_startup_only.2.1 "\x7b\x7b" (by decide),
   template_fatal_startup_only.2.2 ⟨[], ["cmdline", "symbol"], "/d/"⟩ (fun _ => 0)⟩
